import Mathlib

/-!
# Verification of the RhinoMCP design-brief interpreter

Shallow embedding of `rhino_mcp/design_brief_interpreter.py`
(`DesignBriefInterpreter`): the keyword resolver (`_extract_keywords`,
`_derive_parameters`), the operation generator (`_generate_operations`
and its facade branch), and the top-level `interpret_brief` pipeline.

Python dictionaries are modelled as insertion-ordered association
lists, Python runtime values as the inductive `PValue`, and the
per-category `re.findall` calls (whose patterns are plain alternations
of literal strings) as a left-to-right scan trying the alternatives in
order at each position, exactly as the Python regex engine does for
such patterns.  Code paths that can raise (`d[k]` lookups) return
`Except`.
-/

namespace RhinoMCP

/-- Python runtime values as stored in the interpreter's parameter
dictionaries: ints, floats (exact rationals here), booleans and strings. -/
inductive PValue where
  | int (n : Int)
  | float (q : Rat)
  | bool (b : Bool)
  | str (s : String)
deriving DecidableEq, Repr

/-- A Python dict from parameter names to values, as an insertion-ordered
association list (no duplicate keys arise in this development). -/
abbrev ParamList := List (String × PValue)

/-- Dictionary read `d.get(k)`: the value at the first matching key. -/
def getParam (ps : ParamList) (k : String) : Option PValue :=
  (ps.find? (fun p => p.1 == k)).map (fun p => p.2)

/-- Dictionary write `d[k] = v`: overwrite in place when the key exists
(keeping its position, as Python dicts do), otherwise append. -/
def setParam (ps : ParamList) (k : String) (v : PValue) : ParamList :=
  if ps.any (fun p => p.1 == k) then
    ps.map (fun p => if p.1 == k then (k, v) else p)
  else
    ps ++ [(k, v)]

/-- Dictionary read `d[k]`, raising `KeyError` when the key is absent;
`str(KeyError(k))` is the key surrounded by single quotes. -/
def getItem (ps : ParamList) (k : String) : Except String PValue :=
  match getParam ps k with
  | some v => Except.ok v
  | none => Except.error ("\x27" ++ k ++ "\x27")

/-- The term `self.default_params` from `DesignBriefInterpreter.__init__`. -/
def default_params : ParamList :=
  [ ("grid_size", PValue.float 1.0),
    ("floor_height", PValue.float 3.0),
    ("panel_depth", PValue.float 0.2),
    ("facade_offset", PValue.float 0.5),
    ("story_count", PValue.int 5),
    ("responsive_panels", PValue.bool true),
    ("panel_density", PValue.float 0.8),
    ("view_priority", PValue.float 0.7),
    ("sun_priority", PValue.float 0.8),
    ("panel_rotation_limit", PValue.int 45),
    ("panel_type", PValue.str "rectangular"),
    ("material", PValue.str "glass"),
    ("structural_system", PValue.str "frame") ]

/-- The term `self.keyword_mappings` from `DesignBriefInterpreter.__init__`:
keyword → partial parameter overrides, in source order. -/
def keyword_mappings : List (String × ParamList) :=
  [ ("high-rise", [("story_count", PValue.int 30), ("panel_density", PValue.float 0.9)]),
    ("mid-rise", [("story_count", PValue.int 15), ("panel_density", PValue.float 0.8)]),
    ("low-rise", [("story_count", PValue.int 5), ("panel_density", PValue.float 0.7)]),
    ("tower", [("story_count", PValue.int 40), ("panel_density", PValue.float 0.85),
               ("form", PValue.str "tower")]),
    ("dynamic", [("responsive_panels", PValue.bool true), ("panel_rotation_limit", PValue.int 60)]),
    ("static", [("responsive_panels", PValue.bool false), ("panel_rotation_limit", PValue.int 0)]),
    ("kinetic", [("responsive_panels", PValue.bool true), ("panel_rotation_limit", PValue.int 90)]),
    ("adaptive", [("responsive_panels", PValue.bool true), ("panel_rotation_limit", PValue.int 75)]),
    ("responsive", [("responsive_panels", PValue.bool true)]),
    ("louvres", [("panel_type", PValue.str "louvre"), ("panel_density", PValue.float 0.9)]),
    ("sunshade", [("panel_type", PValue.str "louvre"), ("sun_priority", PValue.float 0.9),
                  ("view_priority", PValue.float 0.5)]),
    ("sun angle", [("sun_priority", PValue.float 0.9)]),
    ("solar", [("sun_priority", PValue.float 0.9)]),
    ("daylight", [("sun_priority", PValue.float 0.8), ("panel_type", PValue.str "perforated")]),
    ("shadowing", [("sun_priority", PValue.float 0.9), ("panel_density", PValue.float 0.9)]),
    ("views", [("view_priority", PValue.float 0.9)]),
    ("framing views", [("view_priority", PValue.float 0.95), ("panel_density", PValue.float 0.7)]),
    ("transparent", [("material", PValue.str "glass"), ("panel_density", PValue.float 0.6)]),
    ("opaque", [("material", PValue.str "solid"), ("panel_density", PValue.float 0.9)]),
    ("glass", [("material", PValue.str "glass")]),
    ("metal", [("material", PValue.str "metal")]),
    ("wood", [("material", PValue.str "wood")]),
    ("aluminum", [("material", PValue.str "aluminum")]),
    ("concrete", [("material", PValue.str "concrete")]),
    ("dense", [("panel_density", PValue.float 0.9)]),
    ("sparse", [("panel_density", PValue.float 0.5)]),
    ("porous", [("panel_density", PValue.float 0.6), ("panel_type", PValue.str "perforated")]),
    ("pattern", [("panel_type", PValue.str "patterned")]),
    ("parametric", [("panel_type", PValue.str "parametric")]),
    ("lightweight", [("structural_system", PValue.str "lightweight")]),
    ("modular", [("grid_size", PValue.float 1.2), ("structural_system", PValue.str "modular")]),
    ("prefab", [("structural_system", PValue.str "modular")]) ]

/-- The term `self.patterns` from `DesignBriefInterpreter.__init__`: each category's
regex is a plain alternation `(w1|w2|...)` of literal keywords, recorded
here as the ordered list of alternatives. -/
def patterns : List (String × List String) :=
  [ ("building_type", ["high-rise", "mid-rise", "low-rise", "tower", "building"]),
    ("facade_type", ["dynamic", "kinetic", "adaptive", "responsive", "static", "louvres", "sunshade"]),
    ("environment", ["sun angle", "solar", "daylight", "shadowing", "climate", "weather", "temperature"]),
    ("views", ["views", "framing views", "panorama", "outlook", "vista"]),
    ("materials", ["glass", "metal", "wood", "aluminum", "concrete", "transparent", "opaque"]),
    ("pattern", ["dense", "sparse", "porous", "pattern", "parametric"]),
    ("structure", ["lightweight", "modular", "prefab"]) ]

/-- Does `p` occur as a leading segment of `l`?  (Building block of the
regex-alternation matcher.) -/
def isPrfx : List Char → List Char → Bool
  | [], _ => true
  | _ :: _, [] => false
  | a :: as, b :: bs => a == b && isPrfx as bs

/-- The regex alternation: at the current position, try each literal
alternative in order and return the first that matches, exactly as the
Python engine resolves `(w1|w2|...)`. -/
def findFirst (alts : List (List Char)) (l : List Char) : Option (List Char) :=
  alts.find? (fun a => isPrfx a l)

/-- Fuelled scan implementing `re.findall` for a pattern that is an
alternation of literal strings: walk the text left to right; at each
position take the first alternative that matches, record it, and resume
right after the matched segment (non-overlapping matches).  The fuel is
an upper bound on the remaining text length, so it never runs out. -/
def findallF (alts : List (List Char)) : Nat → List Char → List (List Char)
  | 0, _ => []
  | _ + 1, [] => []
  | fuel + 1, c :: rest =>
    match findFirst alts (c :: rest) with
    | some a => a :: findallF alts fuel (rest.drop (a.length - 1))
    | none => findallF alts fuel rest

/-- The term `re.findall(pattern, text)` for an alternation-of-literals pattern. -/
def findall (alts : List (List Char)) (l : List Char) : List (List Char) :=
  findallF alts l.length l

/-- The term `brief.lower()` (character-wise ASCII lowering). -/
def pyLower (s : String) : List Char :=
  s.data.map Char.toLower

/-- The category loop of `DesignBriefInterpreter._extract_keywords`,
applied to the already lower-cased text: run each category's `findall`
and keep only the categories with at least one match (the
`if matches:` guard), in table order. -/
def extract_matches_with (pats : List (String × List String))
    (L : List Char) : List (String × List String) :=
  (pats.map (fun cp =>
    (cp.1, (findall (cp.2.map String.data) L).map (fun m => String.mk m)))).filter
    (fun r => !r.2.isEmpty)

/-- The term `DesignBriefInterpreter._extract_keywords`, parametrised by the
pattern table: lower-case the brief, then match every category. -/
def extract_keywords_with (pats : List (String × List String))
    (brief : String) : List (String × List String) :=
  extract_matches_with pats (pyLower brief)

/-- The term `DesignBriefInterpreter._extract_keywords` with the source tables. -/
def extract_keywords (brief : String) : List (String × List String) :=
  extract_keywords_with patterns brief

/-- The term `self.keyword_mappings[word]` guarded by
`if word in self.keyword_mappings`. -/
def lookupRuleWith (maps : List (String × ParamList)) (w : String) : Option ParamList :=
  (maps.find? (fun kv => kv.1 == w)).map (fun kv => kv.2)

/-- Keyword-rule lookup against the source table. -/
def lookupRule (w : String) : Option ParamList :=
  lookupRuleWith keyword_mappings w

/-- Processing of one matched word inside `_derive_parameters`:
`if word in self.keyword_mappings:` overwrite each of the rule's keys. -/
def applyWordWith (maps : List (String × ParamList)) (ps : ParamList)
    (w : String) : ParamList :=
  match lookupRuleWith maps w with
  | some rules => rules.foldl (fun acc e => setParam acc e.1 e.2) ps
  | none => ps

/-- The term `DesignBriefInterpreter._derive_parameters`, parametrised by the
tables: start from a copy of the defaults and fold the matched words,
categories in extraction order, words in match order. -/
def derive_parameters_with (defaults : ParamList)
    (maps : List (String × ParamList))
    (ks : List (String × List String)) : ParamList :=
  ks.foldl (fun ps cat => cat.2.foldl (applyWordWith maps) ps) defaults

/-- The term `DesignBriefInterpreter._derive_parameters` with the source tables. -/
def derive_parameters (ks : List (String × List String)) : ParamList :=
  derive_parameters_with default_params keyword_mappings ks

/-- The parameter keys written by one matched word: the keys of its rule
(or nothing when the word has no rule). -/
def ruleKeys (w : String) : List String :=
  match lookupRule w with
  | some rules => rules.map Prod.fst
  | none => []

/-- All parameter keys written while deriving from an extraction result:
a key outside this list is never overwritten. -/
def writtenKeys (ks : List (String × List String)) : List String :=
  ks.foldr (fun c acc => c.2.foldr (fun w acc2 => ruleKeys w ++ acc2) acc) []

/-- The term `pat` occurs as a contiguous substring of `l`. -/
def hasSub (pat l : List Char) : Prop :=
  ∃ s t, l = s ++ pat ++ t

/-- The alternatives of the `building_type` pattern, as character lists. -/
def buildingAlts : List (List Char) :=
  ["high-rise", "mid-rise", "low-rise", "tower", "building"].map String.data

/-! ## Operation generation (`_generate_operations` and the per-domain
generators).  Dictionary reads `params[k]` can raise `KeyError`, so these
run in `Except String`. -/

/-- Values appearing in an operation's parameter dict: plain Python
values, plus the two literal list payloads occurring in the source. -/
inductive OpValue where
  | val (v : PValue)
  | intList (xs : List Int)
  | strList (xs : List String)
deriving DecidableEq, Repr

/-- One entry of the operations list: `{"operation": ..., "params": {...}}`. -/
structure Operation where
  operation : String
  params : List (String × OpValue)
deriving DecidableEq, Repr

/-- Python truthiness of the modelled values (`if params[k]:`). -/
def pyTruthy : PValue → Bool
  | PValue.int n => n != 0
  | PValue.float q => q != 0
  | PValue.bool b => b
  | PValue.str s => s != ""

/-- Numeric view of a value for Python `==`/`*`: bools count as 0/1. -/
def asNum : PValue → Option Rat
  | PValue.int n => some (n : Rat)
  | PValue.float q => some q
  | PValue.bool b => some (if b then 1 else 0)
  | PValue.str _ => none

/-- Integral view of a value: bools count as 0/1, floats do not coerce. -/
def asInt : PValue → Option Int
  | PValue.int n => some n
  | PValue.bool b => some (if b then 1 else 0)
  | _ => none

/-- Python `==` on the modelled values: strings compare as strings,
numbers (ints, floats, bools) compare numerically, and a string never
equals a number. -/
def pyEqB (a b : PValue) : Bool :=
  match a, b with
  | PValue.str x, PValue.str y => x == y
  | _, _ =>
    match asNum a, asNum b with
    | some x, some y => x == y
    | _, _ => false

/-- Python `*` on the modelled values: int-like × int-like stays
integral, any float makes it a float, a string repeats by an int-like
count, and the remaining combinations raise `TypeError`. -/
def pyMul (a b : PValue) : Except String PValue :=
  match asInt a, asInt b with
  | some m, some n => Except.ok (PValue.int (m * n))
  | _, _ =>
    match asNum a, asNum b with
    | some x, some y => Except.ok (PValue.float (x * y))
    | _, _ =>
      match a, b with
      | PValue.str s, other =>
        match asInt other with
        | some n => Except.ok (PValue.str (String.join (List.replicate n.toNat s)))
        | none => Except.error "can\x27t multiply sequence by non-int"
      | other, PValue.str s =>
        match asInt other with
        | some n => Except.ok (PValue.str (String.join (List.replicate n.toNat s)))
        | none => Except.error "can\x27t multiply sequence by non-int"
      | _, _ => Except.error "unsupported operand type(s) for *"

/-- The term `DesignBriefInterpreter._generate_facade_operations`. -/
def generate_facade_operations (params : ParamList) : Except String (List Operation) := do
  let sc ← getItem params "story_count"
  let fh ← getItem params "floor_height"
  let gs ← getItem params "grid_size"
  let envelope : Operation :=
    ⟨"create_building_envelope",
      [("story_count", OpValue.val sc), ("floor_height", OpValue.val fh),
       ("grid_size", OpValue.val gs)]⟩
  let off ← getItem params "facade_offset"
  let pt ← getItem params "panel_type"
  let pd ← getItem params "panel_density"
  let mat ← getItem params "material"
  let ss ← getItem params "structural_system"
  let facadeSystem : Operation :=
    ⟨"create_facade_system",
      [("offset", OpValue.val off), ("panel_type", OpValue.val pt),
       ("panel_density", OpValue.val pd), ("material", OpValue.val mat),
       ("structural_system", OpValue.val ss)]⟩
  let rp ← getItem params "responsive_panels"
  let responsiveOps ←
    if pyTruthy rp then do
      let sp ← getItem params "sun_priority"
      let vp ← getItem params "view_priority"
      let rl ← getItem params "panel_rotation_limit"
      pure [(⟨"analyze_sun_angles", [("priority", OpValue.val sp)]⟩ : Operation),
            ⟨"analyze_view_corridors", [("priority", OpValue.val vp)]⟩,
            ⟨"generate_panel_rotations",
              [("rotation_limit", OpValue.val rl), ("sun_priority", OpValue.val sp),
               ("view_priority", OpValue.val vp)]⟩]
    else pure []
  let geometry : Operation :=
    ⟨"generate_facade_geometry", params.map (fun e => (e.1, OpValue.val e.2))⟩
  pure ([envelope, facadeSystem] ++ responsiveOps ++ [geometry])

/-- The term `DesignBriefInterpreter._generate_floor_plan_operations`. -/
def generate_floor_plan_operations (params : ParamList) : Except String (List Operation) := do
  let fa ← getItem params "floor_area"
  let boundary : Operation :=
    ⟨"create_floor_boundary",
      [("area", OpValue.val fa), ("proportions", OpValue.val (PValue.str "rectangular"))]⟩
  let pt ← getItem params "program_type"
  let rc ← getItem params "room_count"
  let op ← getItem params "open_plan"
  let zones : Operation :=
    ⟨"generate_program_zones",
      [("program_type", OpValue.val pt), ("room_count", OpValue.val rc),
       ("open_plan", OpValue.val op)]⟩
  let cw ← getItem params "corridor_width"
  let rd ← getItem params "room_division"
  let circulation : Operation :=
    ⟨"create_circulation",
      [("corridor_width", OpValue.val cw), ("room_division", OpValue.val rd)]⟩
  let partitionOps ←
    if !pyTruthy op then do
      let rd2 ← getItem params "room_division"
      let rc2 ← getItem params "room_count"
      pure [(⟨"create_partitions",
        [("room_division", OpValue.val rd2), ("room_count", OpValue.val rc2)]⟩ : Operation)]
    else pure []
  let pt2 ← getItem params "program_type"
  let furniture : Operation :=
    ⟨"place_furniture",
      [("program_type", OpValue.val pt2), ("density", OpValue.val (PValue.float 0.7))]⟩
  pure ([boundary, zones, circulation] ++ partitionOps ++ [furniture])

/-- The term `DesignBriefInterpreter._generate_urban_operations`. -/
def generate_urban_operations (params : ParamList) : Except String (List Operation) := do
  let bs1 ← getItem params "block_size"
  let bs2 ← getItem params "block_size"
  let p1 ← pyMul bs1 bs2
  let siteArea ← pyMul p1 (PValue.int 4)
  let site : Operation :=
    ⟨"create_site_boundary",
      [("site_area", OpValue.val siteArea),
       ("site_proportions", OpValue.val (PValue.str "rectangular"))]⟩
  let bs3 ← getItem params "block_size"
  let sw ← getItem params "street_width"
  let streets : Operation :=
    ⟨"generate_street_network",
      [("block_size", OpValue.val bs3), ("street_width", OpValue.val sw),
       ("network_type", OpValue.val (PValue.str "grid"))]⟩
  let cover ← getItem params "building_coverage"
  let dens ← getItem params "density"
  let footprints : Operation :=
    ⟨"create_building_footprints",
      [("coverage", OpValue.val cover), ("density", OpValue.val dens)]⟩
  let ha ← getItem params "building_height_avg"
  let mu ← getItem params "mixed_use"
  let massing : Operation :=
    ⟨"generate_building_massing",
      [("height_avg", OpValue.val ha),
       ("height_variation", OpValue.val (PValue.float 0.3)),
       ("mixed_use", OpValue.val mu)]⟩
  let publicSpaces : Operation :=
    ⟨"add_public_spaces",
      [("ratio", OpValue.val (PValue.float 0.2)),
       ("distribution", OpValue.val (PValue.str "central"))]⟩
  pure [site, streets, footprints, massing, publicSpaces]

/-- The term `DesignBriefInterpreter._generate_landscape_operations`. -/
def generate_landscape_operations (params : ParamList) : Except String (List Operation) := do
  let tc ← getItem params "terrain_complexity"
  let tv ← getItem params "topography_variation"
  let terrain : Operation :=
    ⟨"create_terrain",
      [("area", OpValue.val (PValue.int 10000)), ("complexity", OpValue.val tc),
       ("height_variation", OpValue.val tv)]⟩
  let pc ← getItem params "path_complexity"
  let paths : Operation :=
    ⟨"generate_path_network",
      [("complexity", OpValue.val pc), ("path_width", OpValue.val (PValue.float 2.0))]⟩
  let vd ← getItem params "vegetation_density"
  let veg : Operation :=
    ⟨"add_vegetation",
      [("density", OpValue.val vd),
       ("types", OpValue.strList ["trees", "shrubs", "ground_cover"])]⟩
  let wf ← getItem params "water_features"
  let waterOps ←
    if pyTruthy wf then
      pure [(⟨"add_water_features",
        [("type", OpValue.val (PValue.str "pond")),
         ("area_ratio", OpValue.val (PValue.float 0.15))]⟩ : Operation)]
    else pure ([] : List Operation)
  let siteFurniture : Operation :=
    ⟨"add_site_furniture", [("density", OpValue.val (PValue.float 0.5))]⟩
  pure ([terrain, paths, veg] ++ waterOps ++ [siteFurniture])

/-- The term `DesignBriefInterpreter._generate_structure_operations`. -/
def generate_structure_operations (params : ParamList) : Except String (List Operation) := do
  let sg ← getItem params "structural_grid"
  let ss ← getItem params "structural_system"
  let grid : Operation :=
    ⟨"create_structural_grid",
      [("grid_size", OpValue.val sg), ("system_type", OpValue.val ss)]⟩
  let cd ← getItem params "column_dimensions"
  let sm1 ← getItem params "structural_material"
  let columns : Operation :=
    ⟨"generate_columns",
      [("dimensions", OpValue.val cd), ("material", OpValue.val sm1)]⟩
  let bd ← getItem params "beam_depth"
  let sm2 ← getItem params "structural_material"
  let beams : Operation :=
    ⟨"generate_beams", [("depth", OpValue.val bd), ("material", OpValue.val sm2)]⟩
  let sm3 ← getItem params "structural_material"
  let slabs : Operation :=
    ⟨"generate_floor_slabs",
      [("thickness", OpValue.val (PValue.float 0.2)), ("material", OpValue.val sm3)]⟩
  let sm4 ← getItem params "structural_material"
  let lateral : Operation :=
    ⟨"create_lateral_system",
      [("type", OpValue.val (PValue.str "bracing")), ("material", OpValue.val sm4)]⟩
  pure [grid, columns, beams, slabs, lateral]

/-- The term `DesignBriefInterpreter._generate_parametric_form_operations`. -/
def generate_parametric_form_operations (params : ParamList) : Except String (List Operation) := do
  let base : Operation :=
    ⟨"create_base_geometry",
      [("type", OpValue.val (PValue.str "box")), ("dimensions", OpValue.intList [10, 10, 10])]⟩
  let sl ← getItem params "subdivision_level"
  let subdivision : Operation :=
    ⟨"apply_subdivision",
      [("level", OpValue.val sl), ("method", OpValue.val (PValue.str "catmull-clark"))]⟩
  let ap ← getItem params "attractor_points"
  let attractors : Operation :=
    ⟨"create_attractors",
      [("count", OpValue.val ap), ("influence", OpValue.val (PValue.float 0.7))]⟩
  let it ← getItem params "iterations"
  let cx ← getItem params "complexity"
  let deformation : Operation :=
    ⟨"apply_deformation",
      [("iterations", OpValue.val it), ("strength", OpValue.val cx)]⟩
  let sym ← getItem params "symmetry"
  let symmetryOps ←
    if !pyEqB sym (PValue.str "none") then
      pure [(⟨"apply_symmetry",
        [("type", OpValue.val sym), ("preserve_original", OpValue.val (PValue.bool true))]⟩ : Operation)]
    else pure ([] : List Operation)
  pure ([base, subdivision, attractors, deformation] ++ symmetryOps)

/-- The term `DesignBriefInterpreter._generate_operations`: the initial
`initialize_design` dict reads `params["grid_size"]`, `params["material"]`
and `params["color_scheme"]` in that order, then the design-domain branch
runs, then `finalize_design` is appended. -/
def generate_operations (params : ParamList) : Except String (List Operation) := do
  let design_domain := (getParam params "design_domain").getD (PValue.str "facade")
  let gs ← getItem params "grid_size"
  let mat ← getItem params "material"
  let cs ← getItem params "color_scheme"
  let initOp : Operation :=
    ⟨"initialize_design",
      [("design_domain", OpValue.val design_domain), ("grid_size", OpValue.val gs),
       ("material", OpValue.val mat), ("color_scheme", OpValue.val cs)]⟩
  let domainOps ←
    if pyEqB design_domain (PValue.str "facade") then
      generate_facade_operations params
    else if pyEqB design_domain (PValue.str "floor_plan") then
      generate_floor_plan_operations params
    else if pyEqB design_domain (PValue.str "urban") then
      generate_urban_operations params
    else if pyEqB design_domain (PValue.str "landscape") then
      generate_landscape_operations params
    else if pyEqB design_domain (PValue.str "structure") then
      generate_structure_operations params
    else if pyEqB design_domain (PValue.str "parametric_form") then
      generate_parametric_form_operations params
    else pure []
  let finalOp : Operation :=
    ⟨"finalize_design",
      [("design_domain", OpValue.val design_domain),
       ("export_format", OpValue.val (PValue.str "3dm")),
       ("add_metadata", OpValue.val (PValue.bool true))]⟩
  pure ([initOp] ++ domainOps ++ [finalOp])

/-! ## The top-level pipeline `interpret_brief`. -/

/-- The structured response built at the end of `interpret_brief`:
the original brief, the two interpretation fields (keywords and
parameters), the operations list, and the two generated script texts. -/
structure InterpretRecord where
  brief : String
  keywords : List (String × List String)
  parameters : ParamList
  operations : List Operation
  rhino : String
  grasshopper : String
deriving DecidableEq, Repr

/-- Result of `interpret_brief`: either the structured record, or the
`{"error": str(e), "brief": brief}` dict produced by the `except` arm. -/
inductive BriefResult where
  | ok (record : InterpretRecord)
  | genError (error : String) (brief : String)
deriving DecidableEq, Repr

/-- The term `DesignBriefInterpreter.interpret_brief`, parametrised by the two
code-generation collaborators (`_generate_rhino_code` and
`_generate_grasshopper_code`).  The spec scopes the template stage out
and models it only as a collaborator consuming the operations and
producing opaque script text, so those two stages are kept abstract
here; the `try`/`except Exception` wrapper means the first stage to
raise determines the error record. -/
def interpret_brief_with (rhinoGen ghGen : List Operation → Except String String)
    (brief : String) : BriefResult :=
  let keywords := extract_keywords brief
  let params := derive_parameters keywords
  match generate_operations params with
  | Except.error e => BriefResult.genError e brief
  | Except.ok ops =>
    match rhinoGen ops with
    | Except.error e => BriefResult.genError e brief
    | Except.ok rhinoCode =>
      match ghGen ops with
      | Except.error e => BriefResult.genError e brief
      | Except.ok ghCode =>
        BriefResult.ok ⟨brief, keywords, params, ops, rhinoCode, ghCode⟩

/-! ## Dynamic typing at the resolver boundary.

`_extract_keywords` starts with `brief.lower()`; under Python's dynamic
typing a non-string argument of any of the basic non-string types fails
that attribute lookup immediately with `AttributeError`, before any
pattern is tried. -/

/-- The Python values a caller might pass as `brief`: a string or one of
the basic non-string types (none of which has a `lower` attribute). -/
inductive PyInput where
  | str (s : String)
  | int (n : Int)
  | float (q : Rat)
  | bool (b : Bool)
  | pyNone
  | pyList
  | pyDict
deriving DecidableEq, Repr

/-- The term `type(v).__name__` for the modelled input types. -/
def pyTypeName : PyInput → String
  | PyInput.str _ => "str"
  | PyInput.int _ => "int"
  | PyInput.float _ => "float"
  | PyInput.bool _ => "bool"
  | PyInput.pyNone => "NoneType"
  | PyInput.pyList => "list"
  | PyInput.pyDict => "dict"

/-- The term `brief.lower()` under dynamic typing: on every modelled non-string
input, attribute lookup raises `AttributeError` at once. -/
def pyLowerDyn : PyInput → Except String (List Char)
  | PyInput.str s => Except.ok (pyLower s)
  | v => Except.error
      ("\x27" ++ pyTypeName v ++ "\x27 object has no attribute \x27lower\x27")

/-- The term `_extract_keywords` on a dynamically typed argument. -/
def extract_keywords_dyn (v : PyInput) : Except String (List (String × List String)) :=
  (pyLowerDyn v).map (extract_matches_with patterns)

/-- The resolver (extraction then derivation) on a dynamically typed
argument. -/
def resolve_dyn (v : PyInput) : Except String ParamList :=
  (extract_keywords_dyn v).map derive_parameters

/-! ## The interpreter object state, threaded explicitly.

`__init__` builds the three tables; the resolver methods only read
them (`_derive_parameters` starts from `self.default_params.copy()`),
so each method returns the state it was given. -/

/-- The fields set by `DesignBriefInterpreter.__init__`. -/
structure InterpreterState where
  default_params : ParamList
  keyword_mappings : List (String × ParamList)
  patterns : List (String × List String)
deriving DecidableEq, Repr

/-- The term `DesignBriefInterpreter()`. -/
def mkInterpreter : InterpreterState :=
  ⟨default_params, keyword_mappings, patterns⟩

/-- The term `_extract_keywords` with the object state threaded explicitly: the
method only reads `self.patterns`. -/
def extract_keywords_st (st : InterpreterState) (brief : String) :
    InterpreterState × List (String × List String) :=
  (st, extract_keywords_with st.patterns brief)

/-- The term `_derive_parameters` with the object state threaded explicitly: the
method copies `self.default_params` and only reads the tables. -/
def derive_parameters_st (st : InterpreterState)
    (ks : List (String × List String)) : InterpreterState × ParamList :=
  (st, derive_parameters_with st.default_params st.keyword_mappings ks)

/-- The resolver pipeline on explicit state: extraction then derivation. -/
def resolve_st (st : InterpreterState) (brief : String) :
    InterpreterState × ParamList :=
  let res := extract_keywords_st st brief
  derive_parameters_st res.1 res.2

/-! ## Dictionary lemmas: reading after writing an association list. -/

theorem getParam_cons (p : String × PValue) (t : ParamList) (k : String) :
    getParam (p :: t) k = if p.1 == k then some p.2 else getParam t k := by
  cases h : p.1 == k <;> simp [getParam, List.find?, h]

/-- Rewriting an existing key leaves every other key's value alone. -/
theorem getParam_map_set (t : ParamList) (k k' : String) (v : PValue)
    (hk : k' ≠ k) :
    getParam (t.map (fun p => if p.1 == k then (k, v) else p)) k' = getParam t k' := by
  have hkk : (k == k') = false := beq_eq_false_iff_ne.mpr (fun h => hk h.symm)
  induction t with
  | nil => rfl
  | cons p t ih =>
    cases hp : p.1 == k
    · simp only [List.map_cons, hp, Bool.false_eq_true, if_neg, not_false_iff]
      rw [getParam_cons, getParam_cons, ih]
    · have hpk : p.1 = k := eq_of_beq hp
      have hpk' : (p.1 == k') = false :=
        beq_eq_false_iff_ne.mpr (fun h => hk (hpk ▸ h).symm)
      simp only [List.map_cons, hp, if_pos]
      rw [getParam_cons, getParam_cons]
      simp only [hkk, hpk', Bool.false_eq_true, if_neg, not_false_iff]
      exact ih

/-- Appending a fresh key does not change any other key's value. -/
theorem getParam_append_single (t : ParamList) (k k' : String) (v : PValue)
    (hk : k' ≠ k) :
    getParam (t ++ [(k, v)]) k' = getParam t k' := by
  have hkk : (k == k') = false := beq_eq_false_iff_ne.mpr (fun h => hk h.symm)
  induction t with
  | nil =>
    rw [List.nil_append, getParam_cons]
    simp [hkk, getParam]
  | cons p t ih =>
    rw [List.cons_append, getParam_cons, getParam_cons, ih]

/-- The term `d[k] = v` makes `d[k]` read back `v`. -/
theorem getParam_setParam_self (ps : ParamList) (k : String) (v : PValue) :
    getParam (setParam ps k v) k = some v := by
  induction ps with
  | nil => simp [setParam, getParam, List.find?]
  | cons p t ih =>
    cases hp : p.1 == k
    · have hpne : p.1 ≠ k := beq_eq_false_iff_ne.mp hp
      cases hta : t.any (fun p => p.1 == k)
      · have : setParam (p :: t) k v = p :: (t ++ [(k, v)]) := by
          simp [setParam, List.any_cons, hp, hta]
        rw [this, getParam_cons]
        simp only [hp, Bool.false_eq_true, if_neg, not_false_iff]
        have ht : setParam t k v = t ++ [(k, v)] := by
          simp [setParam, hta]
        rw [ht] at ih
        exact ih
      · have : setParam (p :: t) k v =
            p :: t.map (fun q => if q.1 == k then (k, v) else q) := by
          simp [setParam, List.any_cons, hp, hta, hpne]
        rw [this, getParam_cons]
        simp only [hp, Bool.false_eq_true, if_neg, not_false_iff]
        have ht : setParam t k v = t.map (fun q => if q.1 == k then (k, v) else q) := by
          simp [setParam, hta]
        rw [ht] at ih
        exact ih
    · have hpk : p.1 = k := eq_of_beq hp
      have : setParam (p :: t) k v =
          (k, v) :: t.map (fun q => if q.1 == k then (k, v) else q) := by
        simp [setParam, List.any_cons, hp, hpk]
      rw [this, getParam_cons]
      simp

/-- The term `d[k] = v` does not change the value at any other key. -/
theorem getParam_setParam_ne (ps : ParamList) (k k' : String) (v : PValue)
    (hk : k' ≠ k) :
    getParam (setParam ps k v) k' = getParam ps k' := by
  unfold setParam
  cases h : ps.any (fun p => p.1 == k)
  · simp only [Bool.false_eq_true, if_neg, not_false_iff]
    exact getParam_append_single ps k k' v hk
  · simp only [if_pos]
    exact getParam_map_set ps k k' v hk

/-- Writing never removes a key. -/
theorem isSome_setParam (ps : ParamList) (k k' : String) (v : PValue)
    (h : (getParam ps k').isSome) :
    (getParam (setParam ps k v) k').isSome := by
  by_cases hk : k' = k
  · subst hk
    rw [getParam_setParam_self]
    rfl
  · rw [getParam_setParam_ne ps k k' v hk]
    exact h

/-- The only key a write can add is the written one. -/
theorem isSome_setParam_rev (ps : ParamList) (k k' : String) (v : PValue)
    (h : (getParam (setParam ps k v) k').isSome) :
    (getParam ps k').isSome ∨ k' = k := by
  by_cases hk : k' = k
  · exact Or.inr hk
  · rw [getParam_setParam_ne ps k k' v hk] at h
    exact Or.inl h

/-! ## Folding a rule's overrides onto a parameter set. -/

/-- A rule whose entries either avoid key `k` or write exactly `v0`
cannot disturb a pinned value `v0` at `k`. -/
theorem foldSet_pinned (k : String) (v0 : PValue) (rules : ParamList) :
    ∀ ps : ParamList, (∀ e ∈ rules, e.1 ≠ k ∨ e.2 = v0) →
      getParam ps k = some v0 →
      getParam (rules.foldl (fun acc e => setParam acc e.1 e.2) ps) k = some v0 := by
  induction rules with
  | nil => intro ps _ h; exact h
  | cons e rules ih =>
    intro ps hr h
    simp only [List.foldl_cons]
    apply ih _ (fun e' he' => hr e' (List.mem_cons_of_mem _ he'))
    by_cases hek : e.1 = k
    · rcases hr e (List.mem_cons_self _ _) with he | he
      · exact absurd hek he
      · rw [hek, getParam_setParam_self, he]
    · rw [getParam_setParam_ne ps e.1 k e.2 (fun hh => hek hh.symm)]
      exact h

/-- Folding a rule never removes a key. -/
theorem foldSet_isSome (k : String) (rules : ParamList) :
    ∀ ps : ParamList, (getParam ps k).isSome →
      (getParam (rules.foldl (fun acc e => setParam acc e.1 e.2) ps) k).isSome := by
  induction rules with
  | nil => intro ps h; exact h
  | cons e rules ih =>
    intro ps h
    simp only [List.foldl_cons]
    exact ih _ (isSome_setParam ps e.1 k e.2 h)

/-- A key present after folding a rule was present before or is one of
the rule's keys. -/
theorem foldSet_isSome_rev (k : String) (rules : ParamList) :
    ∀ ps : ParamList,
      (getParam (rules.foldl (fun acc e => setParam acc e.1 e.2) ps) k).isSome →
      (getParam ps k).isSome ∨ ∃ e ∈ rules, e.1 = k := by
  induction rules with
  | nil => intro ps h; exact Or.inl h
  | cons e rules ih =>
    intro ps h
    simp only [List.foldl_cons] at h
    rcases ih _ h with h1 | ⟨e', he', hk⟩
    · rcases isSome_setParam_rev ps e.1 k e.2 h1 with h2 | h2
      · exact Or.inl h2
      · exact Or.inr ⟨e, List.mem_cons_self _ _, h2.symm⟩
    · exact Or.inr ⟨e', List.mem_cons_of_mem _ he', hk⟩

/-- Folding a rule that never mentions key `k` leaves `k`'s value alone. -/
theorem foldSet_not_mem (k : String) (rules : ParamList) :
    ∀ ps : ParamList, (∀ e ∈ rules, e.1 ≠ k) →
      getParam (rules.foldl (fun acc e => setParam acc e.1 e.2) ps) k = getParam ps k := by
  induction rules with
  | nil => intro ps _; rfl
  | cons e rules ih =>
    intro ps hr
    simp only [List.foldl_cons]
    rw [ih _ (fun e' he' => hr e' (List.mem_cons_of_mem _ he'))]
    exact getParam_setParam_ne ps e.1 k e.2
      (fun hh => hr e (List.mem_cons_self _ _) hh.symm)

/-! ## Lemmas about processing one matched word. -/

theorem applyWordWith_none (maps : List (String × ParamList)) (ps : ParamList)
    (w : String) (h : lookupRuleWith maps w = none) :
    applyWordWith maps ps w = ps := by
  simp [applyWordWith, h]

theorem applyWordWith_some (maps : List (String × ParamList)) (ps : ParamList)
    (w : String) (rules : ParamList) (h : lookupRuleWith maps w = some rules) :
    applyWordWith maps ps w = rules.foldl (fun acc e => setParam acc e.1 e.2) ps := by
  simp [applyWordWith, h]

/-- A successful rule lookup returns one of the table's entries. -/
theorem lookupRule_mem (w : String) (rules : ParamList)
    (h : lookupRule w = some rules) :
    ∃ kv ∈ keyword_mappings, kv.2 = rules := by
  unfold lookupRule lookupRuleWith at h
  cases hf : keyword_mappings.find? (fun kv => kv.1 == w) with
  | none => rw [hf] at h; cases h
  | some kv =>
    rw [hf] at h
    exact ⟨kv, List.mem_of_find?_eq_some hf, by simpa using h⟩

/-- Every entry of every keyword rule either avoids the key `"form"` or
writes the value `"tower"` to it (checked over the whole table). -/
theorem keyword_form_fact :
    keyword_mappings.all
      (fun kv => kv.2.all
        (fun e => (e.1 != "form") || (e.2 == PValue.str "tower"))) = true := by
  decide

/-- Every key written by any keyword rule is a default key or `"form"`
(checked over the whole table). -/
theorem keyword_keys_fact :
    keyword_mappings.all
      (fun kv => kv.2.all
        (fun e => (getParam default_params e.1).isSome || (e.1 == "form"))) = true := by
  decide

/-! ## The `"form"` tag: set by the `"tower"` rule, disturbed by no rule. -/

theorem applyWord_preserves_form (ps : ParamList) (w : String)
    (h : getParam ps "form" = some (PValue.str "tower")) :
    getParam (applyWordWith keyword_mappings ps w) "form" = some (PValue.str "tower") := by
  cases hl : lookupRuleWith keyword_mappings w with
  | none => rw [applyWordWith_none _ _ _ hl]; exact h
  | some rules =>
    rw [applyWordWith_some _ _ _ _ hl]
    apply foldSet_pinned _ _ _ _ _ h
    intro e he
    obtain ⟨kv, hkv, hr⟩ := lookupRule_mem w rules hl
    subst hr
    have h2 := (List.all_eq_true.mp keyword_form_fact) kv hkv
    have h3 := (List.all_eq_true.mp h2) e he
    rw [Bool.or_eq_true] at h3
    rcases h3 with hne | heq
    · exact Or.inl (bne_iff_ne.mp hne)
    · exact Or.inr (eq_of_beq heq)

/-- Processing the matched word `"tower"` writes the form tag. -/
theorem applyWord_tower (ps : ParamList) :
    getParam (applyWordWith keyword_mappings ps "tower") "form" =
      some (PValue.str "tower") := by
  have hunfold : applyWordWith keyword_mappings ps "tower" =
      setParam (setParam (setParam ps "story_count" (PValue.int 40))
        "panel_density" (PValue.float 0.85)) "form" (PValue.str "tower") := rfl
  rw [hunfold, getParam_setParam_self]

theorem foldWords_preserves_form (ws : List String) :
    ∀ ps : ParamList, getParam ps "form" = some (PValue.str "tower") →
      getParam (ws.foldl (applyWordWith keyword_mappings) ps) "form" =
        some (PValue.str "tower") := by
  induction ws with
  | nil => intro ps h; exact h
  | cons w ws ih =>
    intro ps h
    exact ih _ (applyWord_preserves_form ps w h)

theorem foldWords_tower (ws : List String) (hmem : "tower" ∈ ws) :
    ∀ ps : ParamList,
      getParam (ws.foldl (applyWordWith keyword_mappings) ps) "form" =
        some (PValue.str "tower") := by
  induction ws with
  | nil => cases hmem
  | cons w ws ih =>
    intro ps
    rcases List.mem_cons.mp hmem with hw | hw
    · simp only [List.foldl_cons]
      exact foldWords_preserves_form ws _ (hw ▸ applyWord_tower ps)
    · exact ih hw _

theorem foldCats_preserves_form (ks : List (String × List String)) :
    ∀ ps : ParamList, getParam ps "form" = some (PValue.str "tower") →
      getParam (ks.foldl (fun ps cat => cat.2.foldl (applyWordWith keyword_mappings) ps) ps)
        "form" = some (PValue.str "tower") := by
  induction ks with
  | nil => intro ps h; exact h
  | cons c ks ih =>
    intro ps h
    exact ih _ (foldWords_preserves_form c.2 ps h)

theorem foldCats_tower (ks : List (String × List String)) (c : String)
    (ws : List String) (hmem : (c, ws) ∈ ks) (ht : "tower" ∈ ws) :
    ∀ ps : ParamList,
      getParam (ks.foldl (fun ps cat => cat.2.foldl (applyWordWith keyword_mappings) ps) ps)
        "form" = some (PValue.str "tower") := by
  induction ks with
  | nil => cases hmem
  | cons c' ks ih =>
    intro ps
    rcases List.mem_cons.mp hmem with hc | hc
    · simp only [List.foldl_cons]
      apply foldCats_preserves_form
      have : c'.2 = ws := by rw [← hc]
      rw [this]
      exact foldWords_tower ws ht ps
    · exact ih hc _

/-! ## Unmatched words leave the parameter set untouched. -/

theorem foldWords_unmatched (ws : List String) :
    ∀ ps : ParamList, (∀ w ∈ ws, lookupRule w = none) →
      ws.foldl (applyWordWith keyword_mappings) ps = ps := by
  induction ws with
  | nil => intro ps _; rfl
  | cons w ws ih =>
    intro ps h
    simp only [List.foldl_cons]
    rw [applyWordWith_none _ _ _ (h w (List.mem_cons_self _ _))]
    exact ih _ (fun w' hw' => h w' (List.mem_cons_of_mem _ hw'))

theorem foldCats_unmatched (ks : List (String × List String)) :
    ∀ ps : ParamList, (∀ c ∈ ks, ∀ w ∈ c.2, lookupRule w = none) →
      ks.foldl (fun ps cat => cat.2.foldl (applyWordWith keyword_mappings) ps) ps = ps := by
  induction ks with
  | nil => intro ps _; rfl
  | cons c ks ih =>
    intro ps h
    simp only [List.foldl_cons]
    rw [foldWords_unmatched c.2 ps (h c (List.mem_cons_self _ _))]
    exact ih _ (fun c' hc' => h c' (List.mem_cons_of_mem _ hc'))

/-! ## Key-set invariants of derivation. -/

theorem applyWord_isSome (ps : ParamList) (w : String) (k : String)
    (h : (getParam ps k).isSome) :
    (getParam (applyWordWith keyword_mappings ps w) k).isSome := by
  cases hl : lookupRuleWith keyword_mappings w with
  | none => rw [applyWordWith_none _ _ _ hl]; exact h
  | some rules => rw [applyWordWith_some _ _ _ _ hl]; exact foldSet_isSome k rules ps h

theorem foldWords_isSome (ws : List String) :
    ∀ ps : ParamList, ∀ k, (getParam ps k).isSome →
      (getParam (ws.foldl (applyWordWith keyword_mappings) ps) k).isSome := by
  induction ws with
  | nil => intro ps k h; exact h
  | cons w ws ih => intro ps k h; exact ih _ k (applyWord_isSome ps w k h)

theorem foldCats_isSome (ks : List (String × List String)) :
    ∀ ps : ParamList, ∀ k, (getParam ps k).isSome →
      (getParam (ks.foldl (fun ps cat => cat.2.foldl (applyWordWith keyword_mappings) ps) ps)
        k).isSome := by
  induction ks with
  | nil => intro ps k h; exact h
  | cons c ks ih => intro ps k h; exact ih _ k (foldWords_isSome c.2 ps k h)

/-- A key present after one word's processing was present before, or is a
default key, or is `"form"`. -/
theorem applyWord_isSome_rev (ps : ParamList) (w : String) (k : String)
    (h : (getParam (applyWordWith keyword_mappings ps w) k).isSome) :
    (getParam ps k).isSome ∨ (getParam default_params k).isSome ∨ k = "form" := by
  cases hl : lookupRuleWith keyword_mappings w with
  | none => rw [applyWordWith_none _ _ _ hl] at h; exact Or.inl h
  | some rules =>
    rw [applyWordWith_some _ _ _ _ hl] at h
    rcases foldSet_isSome_rev k rules ps h with h1 | ⟨e, he, hk⟩
    · exact Or.inl h1
    · obtain ⟨kv, hkv, hr⟩ := lookupRule_mem w rules hl
      subst hr
      have h2 := (List.all_eq_true.mp keyword_keys_fact) kv hkv
      have h3 := (List.all_eq_true.mp h2) e he
      rw [Bool.or_eq_true] at h3
      rcases h3 with hd | hf
      · exact Or.inr (Or.inl (hk ▸ hd))
      · exact Or.inr (Or.inr (hk ▸ eq_of_beq hf))

theorem foldWords_isSome_rev (ws : List String) :
    ∀ ps : ParamList, ∀ k,
      (getParam (ws.foldl (applyWordWith keyword_mappings) ps) k).isSome →
      (getParam ps k).isSome ∨ (getParam default_params k).isSome ∨ k = "form" := by
  induction ws with
  | nil => intro ps k h; exact Or.inl h
  | cons w ws ih =>
    intro ps k h
    rcases ih _ k h with h1 | h1
    · exact applyWord_isSome_rev ps w k h1
    · exact Or.inr h1

theorem foldCats_isSome_rev (ks : List (String × List String)) :
    ∀ ps : ParamList, ∀ k,
      (getParam (ks.foldl (fun ps cat => cat.2.foldl (applyWordWith keyword_mappings) ps) ps)
        k).isSome →
      (getParam ps k).isSome ∨ (getParam default_params k).isSome ∨ k = "form" := by
  induction ks with
  | nil => intro ps k h; exact Or.inl h
  | cons c ks ih =>
    intro ps k h
    rcases ih _ k h with h1 | h1
    · exact foldWords_isSome_rev c.2 ps k h1
    · exact Or.inr h1

/-! ## Keys outside `writtenKeys` keep their incoming values. -/

theorem applyWord_not_written (ps : ParamList) (w : String) (k : String)
    (h : k ∉ ruleKeys w) :
    getParam (applyWordWith keyword_mappings ps w) k = getParam ps k := by
  cases hl : lookupRule w with
  | none => rw [applyWordWith_none _ _ _ hl]
  | some rules =>
    rw [applyWordWith_some _ _ _ _ hl]
    apply foldSet_not_mem
    intro e he hek
    apply h
    unfold ruleKeys
    rw [hl]
    exact hek ▸ List.mem_map_of_mem Prod.fst he

theorem foldWords_not_written (ws : List String) :
    ∀ ps : ParamList, ∀ k, (∀ w ∈ ws, k ∉ ruleKeys w) →
      getParam (ws.foldl (applyWordWith keyword_mappings) ps) k = getParam ps k := by
  induction ws with
  | nil => intro ps k _; rfl
  | cons w ws ih =>
    intro ps k h
    simp only [List.foldl_cons]
    rw [ih _ k (fun w' hw' => h w' (List.mem_cons_of_mem _ hw'))]
    exact applyWord_not_written ps w k (h w (List.mem_cons_self _ _))

theorem foldCats_not_written (ks : List (String × List String)) :
    ∀ ps : ParamList, ∀ k, (∀ c ∈ ks, ∀ w ∈ c.2, k ∉ ruleKeys w) →
      getParam (ks.foldl (fun ps cat => cat.2.foldl (applyWordWith keyword_mappings) ps) ps) k =
        getParam ps k := by
  induction ks with
  | nil => intro ps k _; rfl
  | cons c ks ih =>
    intro ps k h
    simp only [List.foldl_cons]
    rw [ih _ k (fun c' hc' => h c' (List.mem_cons_of_mem _ hc'))]
    exact foldWords_not_written c.2 ps k (h c (List.mem_cons_self _ _))

theorem mem_foldr_ruleKeys_of_acc (k : String) (ws : List String)
    (acc : List String) (h : k ∈ acc) :
    k ∈ ws.foldr (fun w acc2 => ruleKeys w ++ acc2) acc := by
  induction ws with
  | nil => exact h
  | cons w ws ih => exact List.mem_append_right _ ih

theorem mem_foldr_ruleKeys_of_mem (k : String) (ws : List String)
    (acc : List String) (w : String) (hw : w ∈ ws) (hk : k ∈ ruleKeys w) :
    k ∈ ws.foldr (fun w acc2 => ruleKeys w ++ acc2) acc := by
  induction ws with
  | nil => cases hw
  | cons w' ws ih =>
    rcases List.mem_cons.mp hw with h | h
    · exact List.mem_append_left _ (h ▸ hk)
    · exact List.mem_append_right _ (ih h)

/-- Any key some matched word's rule writes is in `writtenKeys`. -/
theorem writtenKeys_spec (k : String) (ks : List (String × List String))
    (c : String × List String) (hc : c ∈ ks) (w : String) (hw : w ∈ c.2)
    (hk : k ∈ ruleKeys w) : k ∈ writtenKeys ks := by
  induction ks with
  | nil => cases hc
  | cons c' ks ih =>
    unfold writtenKeys
    simp only [List.foldr_cons]
    rcases List.mem_cons.mp hc with h | h
    · exact mem_foldr_ruleKeys_of_mem k c'.2 _ w (h ▸ hw) hk
    · exact mem_foldr_ruleKeys_of_acc k c'.2 _ (ih h)

/-! ## The scan finds every occurrence of `"tower"`.

The `building_type` alternation has the property that no alternative can
overlap a later occurrence of `"tower"`: no nonempty proper suffix of an
alternative is prefix-compatible with `"tower"`.  Hence the
left-to-right non-overlapping scan never consumes the characters of a
`"tower"` occurrence while matching something else starting earlier. -/

theorem isPrfx_append (p t : List Char) : isPrfx p (p ++ t) = true := by
  induction p with
  | nil => rfl
  | cons c p ih => simp [isPrfx, ih]

theorem isPrfx_exists (p : List Char) :
    ∀ l : List Char, isPrfx p l = true → ∃ t, l = p ++ t := by
  induction p with
  | nil => intro l _; exact ⟨l, rfl⟩
  | cons c p ih =>
    intro l h
    cases l with
    | nil => cases h
    | cons b bs =>
      unfold isPrfx at h
      rw [Bool.and_eq_true] at h
      obtain ⟨t, ht⟩ := ih bs h.2
      refine ⟨t, ?_⟩
      rw [List.cons_append, ht, eq_of_beq h.1]

theorem isPrfx_take (l : List Char) : ∀ n, isPrfx (l.take n) l = true := by
  induction l with
  | nil => intro n; simp [isPrfx]
  | cons c l ih =>
    intro n
    cases n with
    | zero => rfl
    | succ n => simp [List.take, isPrfx, ih n]

/-- A match inside an appended text either fits in the left part or
swallows it whole. -/
theorem isPrfx_append_cases (a : List Char) :
    ∀ (p t : List Char), isPrfx a (p ++ t) = true →
      isPrfx a p = true ∨ isPrfx p a = true := by
  induction a with
  | nil => intro p t _; exact Or.inl rfl
  | cons x xs ih =>
    intro p t h
    cases p with
    | nil => exact Or.inr rfl
    | cons y ys =>
      rw [List.cons_append] at h
      unfold isPrfx at h
      rw [Bool.and_eq_true] at h
      rcases ih ys t h.2 with h1 | h1
      · refine Or.inl ?_
        unfold isPrfx
        rw [Bool.and_eq_true]
        exact ⟨h.1, h1⟩
      · refine Or.inr ?_
        unfold isPrfx
        rw [Bool.and_eq_true]
        exact ⟨beq_iff_eq.mpr (eq_of_beq h.1).symm, h1⟩

theorem not_isPrfx_append (a p t : List Char)
    (h1 : isPrfx a p = false) (h2 : isPrfx p a = false) :
    isPrfx a (p ++ t) = false := by
  cases h : isPrfx a (p ++ t)
  · rfl
  · rcases isPrfx_append_cases a p t h with hc | hc
    · rw [h1] at hc; cases hc
    · rw [h2] at hc; cases hc

/-- No alternative of `building_type`, cut at any interior position, is
prefix-compatible with `"tower"` (finite check). -/
theorem building_no_overlap :
    ∀ a ∈ buildingAlts, ∀ q ∈ List.range a.length, q ≠ 0 →
      isPrfx (a.drop q) "tower".data = false ∧
      isPrfx "tower".data (a.drop q) = false := by
  decide

theorem buildingAlts_ne_nil : ∀ a ∈ buildingAlts, 1 ≤ a.length := by
  decide

/-- Where the text starts with `"tower"`, the alternation matches exactly
`"tower"`: the earlier alternatives fail on the first character, so this
computes even with the tail abstract. -/
theorem findFirst_at_tower (t : List Char) :
    findFirst buildingAlts ('t' :: 'o' :: 'w' :: 'e' :: 'r' :: t) =
      some "tower".data := rfl

theorem findallF_cons_some (alts : List (List Char)) (fuel : Nat)
    (c : Char) (rest : List Char) (a : List Char)
    (h : findFirst alts (c :: rest) = some a) :
    findallF alts (fuel + 1) (c :: rest) =
      a :: findallF alts fuel (rest.drop (a.length - 1)) := by
  simp only [findallF, h]

theorem findallF_cons_none (alts : List (List Char)) (fuel : Nat)
    (c : Char) (rest : List Char)
    (h : findFirst alts (c :: rest) = none) :
    findallF alts (fuel + 1) (c :: rest) = findallF alts fuel rest := by
  simp only [findallF, h]

/-- The scan reports `"tower"` whenever it occurs anywhere in the text. -/
theorem findallF_tower :
    ∀ (fuel : Nat) (l : List Char), l.length ≤ fuel →
      hasSub "tower".data l → "tower".data ∈ findallF buildingAlts fuel l := by
  intro fuel
  induction fuel with
  | zero =>
    intro l hl hs
    obtain ⟨s, t, hst⟩ := hs
    rw [Nat.le_zero, List.length_eq_zero] at hl
    subst hl
    exfalso
    have := congrArg List.length hst
    simp at this
    omega
  | succ fuel ih =>
    intro l hl hs
    obtain ⟨s, t, hst⟩ := hs
    cases l with
    | nil =>
      exfalso
      have := congrArg List.length hst
      simp at this
      omega
    | cons c rest =>
      cases s with
      | nil =>
        rw [List.nil_append] at hst
        rw [show "tower".data ++ t = 't' :: 'o' :: 'w' :: 'e' :: 'r' :: t from rfl] at hst
        have hff : findFirst buildingAlts (c :: rest) = some "tower".data := by
          rw [hst]
          exact findFirst_at_tower t
        rw [findallF_cons_some _ _ _ _ _ hff]
        exact List.mem_cons_self _ _
      | cons c' s' =>
        rw [List.cons_append, List.cons_append] at hst
        injection hst with hc hrest
        have hlrest : rest.length ≤ fuel := by
          have h0 : (c :: rest).length ≤ fuel + 1 := hl
          simpa using h0
        cases hff : findFirst buildingAlts (c :: rest) with
        | none =>
          rw [findallF_cons_none _ _ _ _ hff]
          exact ih rest hlrest ⟨s', t, hrest⟩
        | some a =>
          have hmem : a ∈ buildingAlts := List.mem_of_find?_eq_some hff
          have hpr : isPrfx a (c :: rest) = true := by
            have h0 := List.find?_some hff
            simpa using h0
          have ha1 : 1 ≤ a.length := buildingAlts_ne_nil a hmem
          rw [findallF_cons_some _ _ _ _ _ hff]
          by_cases hq : a.length ≤ s'.length + 1
          · -- the match ends at or before the "tower" occurrence
            have hsplit : rest.drop (a.length - 1) =
                s'.drop (a.length - 1) ++ ("tower".data ++ t) := by
              have hq' : a.length - 1 ≤ s'.length := by omega
              rw [hrest, List.append_assoc, List.drop_append_eq_append_drop,
                Nat.sub_eq_zero_of_le hq', List.drop_zero]
            have hsub : hasSub "tower".data (rest.drop (a.length - 1)) := by
              refine ⟨s'.drop (a.length - 1), t, ?_⟩
              rw [hsplit, List.append_assoc]
            have hlen : (rest.drop (a.length - 1)).length ≤ fuel := by
              rw [List.length_drop]
              omega
            exact List.mem_cons_of_mem _ (ih _ hlen hsub)
          · -- the match would cut into the "tower" occurrence: impossible
            exfalso
            obtain ⟨u, hu⟩ := isPrfx_exists a _ hpr
            have ha : a = (c :: rest).take a.length := by
              rw [hu, List.take_left]
            have hshape : c :: rest = (c' :: s') ++ ("tower".data ++ t) := by
              rw [hc, hrest]
              simp [List.append_assoc]
            have h1 : (c :: rest).drop (s'.length + 1) = "tower".data ++ t := by
              rw [hshape]
              have hlen' : s'.length + 1 = (c' :: s').length := by simp
              rw [hlen']
              exact List.drop_left _ _
            have hle : a.length ≤ (c :: rest).length := by
              rw [hu]
              simp
            have hdrop : a.drop (s'.length + 1) =
                ("tower".data ++ t).take (a.length - (s'.length + 1)) := by
              rw [ha, List.drop_take, h1, List.length_take, Nat.min_eq_left hle]
            have hpfx : isPrfx (a.drop (s'.length + 1)) ("tower".data ++ t) = true := by
              rw [hdrop]
              exact isPrfx_take _ _
            have hno := building_no_overlap a hmem (s'.length + 1)
              (List.mem_range.mpr (by omega)) (by omega)
            rcases isPrfx_append_cases _ _ _ hpfx with h1 | h1
            · rw [hno.1] at h1; cases h1
            · rw [hno.2] at h1; cases h1

/-- The term `re.findall` on the `building_type` pattern reports `"tower"`
whenever the text contains it. -/
theorem findall_tower (l : List Char) (h : hasSub "tower".data l) :
    "tower".data ∈ findall buildingAlts l :=
  findallF_tower l.length l (Nat.le_refl _) h

/-- Lower-casing preserves an occurrence of `"tower"` (its characters
are already lower-case). -/
theorem hasSub_lower (b : String) (h : hasSub "tower".data b.data) :
    hasSub "tower".data (pyLower b) := by
  obtain ⟨s, t, hst⟩ := h
  refine ⟨s.map Char.toLower, t.map Char.toLower, ?_⟩
  unfold pyLower
  rw [hst, List.map_append, List.map_append]
  rw [show "tower".data.map Char.toLower = "tower".data from rfl]

/-- A brief whose lower-cased text contains `"tower"` extracts a
`building_type` group containing the keyword `"tower"`. -/
theorem extract_tower (b : String) (h : hasSub "tower".data (pyLower b)) :
    ∃ ms, ("building_type", ms) ∈ extract_keywords b ∧ "tower" ∈ ms := by
  have hm : "tower".data ∈ findall buildingAlts (pyLower b) := findall_tower _ h
  have hm2 : ("tower" : String) ∈ (findall buildingAlts (pyLower b)).map String.mk :=
    List.mem_map_of_mem String.mk hm
  refine ⟨(findall buildingAlts (pyLower b)).map String.mk, ?_, hm2⟩
  rw [show extract_keywords b = extract_matches_with patterns (pyLower b) from rfl]
  unfold extract_matches_with
  rw [List.mem_filter]
  constructor
  · exact List.mem_map.mpr
      ⟨("building_type", ["high-rise", "mid-rise", "low-rise", "tower", "building"]),
       List.mem_cons_self _ _, rfl⟩
  · have hne := List.ne_nil_of_mem hm2
    simp only [Bool.not_eq_true']
    cases hcs : (findall buildingAlts (pyLower b)).map String.mk with
    | nil => exact absurd hcs hne
    | cons x xs => rfl

/-- Once `"tower"` is among the extracted keywords, derivation writes the
form tag and nothing ever erases it. -/
theorem derive_form_tower (ks : List (String × List String)) (ms : List String)
    (hmem : ("building_type", ms) ∈ ks) (ht : "tower" ∈ ms) :
    getParam (derive_parameters ks) "form" = some (PValue.str "tower") :=
  foldCats_tower ks "building_type" ms hmem ht default_params

/-- No brief ever produces a `color_scheme` parameter: it is not a
default key, no rule writes it, and it is not the form tag. -/
theorem derived_no_color_scheme (b : String) :
    getParam (derive_parameters (extract_keywords b)) "color_scheme" = none := by
  cases h : getParam (derive_parameters (extract_keywords b)) "color_scheme" with
  | none => rfl
  | some v =>
    exfalso
    have hs : (getParam (derive_parameters (extract_keywords b)) "color_scheme").isSome := by
      rw [h]
      rfl
    rcases foldCats_isSome_rev (extract_keywords b) default_params "color_scheme" hs
      with h1 | h1 | h1
    · exact absurd h1 (by decide)
    · exact absurd h1 (by decide)
    · exact absurd h1 (by decide)

/-! # Claim theorems -/

/-- C3: when two matched keywords set the same parameter the
later-processed one wins (a write always overwrites), and on the literal
brief `"a dynamic and static facade"` the `"static"` rule is processed
last, so the derived parameters have `responsive_panels == False` and
`panel_rotation_limit == 0`. -/
theorem last_write_wins_dynamic_static :
    (∀ (ps : ParamList) (k : String) (v : PValue),
      getParam (setParam ps k v) k = some v)
    ∧ extract_keywords "a dynamic and static facade" =
        [("facade_type", ["dynamic", "static"])]
    ∧ getParam (derive_parameters (extract_keywords "a dynamic and static facade"))
        "responsive_panels" = some (PValue.bool false)
    ∧ getParam (derive_parameters (extract_keywords "a dynamic and static facade"))
        "panel_rotation_limit" = some (PValue.int 0) :=
  ⟨getParam_setParam_self, by decide, by decide, by decide⟩

/-- C5: a brief none of whose extracted keywords has a rule in the
keyword table resolves to exactly the default parameter set. -/
theorem no_keyword_gives_defaults (b : String)
    (h : ∀ p ∈ extract_keywords b, ∀ w ∈ p.2, lookupRule w = none) :
    derive_parameters (extract_keywords b) = default_params :=
  foldCats_unmatched (extract_keywords b) default_params h

theorem no_keyword_gives_defaults_witness :
    (∀ p ∈ extract_keywords "panorama and climate", ∀ w ∈ p.2, lookupRule w = none)
    ∧ derive_parameters (extract_keywords "panorama and climate") = default_params :=
  ⟨by decide, no_keyword_gives_defaults "panorama and climate" (by decide)⟩

/-- C6: for every string the resolver returns a result (never an
exception); the empty string and a string with no alphabetic characters
both resolve to the defaults. -/
theorem resolver_never_raises :
    (∀ s : String, resolve_dyn (PyInput.str s) =
      Except.ok (derive_parameters (extract_keywords s)))
    ∧ resolve_dyn (PyInput.str "") = Except.ok default_params
    ∧ resolve_dyn (PyInput.str "12 #@!? 34") = Except.ok default_params :=
  ⟨fun _ => rfl, rfl, rfl⟩

/-- C7: resolution does not change the interpreter state (the default
table and the rule tables), and a second run from the post-state yields
the identical parameter set; on the state built by `__init__` the result
is the plain resolver's result. -/
theorem resolution_pure :
    (∀ (st : InterpreterState) (b : String), (resolve_st st b).1 = st)
    ∧ (∀ (st : InterpreterState) (b : String),
        (resolve_st ((resolve_st st b).1) b).2 = (resolve_st st b).2)
    ∧ (∀ b : String, (resolve_st mkInterpreter b).2 =
        derive_parameters (extract_keywords b)) :=
  ⟨fun _ _ => rfl, fun _ _ => rfl, fun _ => rfl⟩

/-- C4: every modelled non-string input makes the resolver fail at once
with the `AttributeError` from `brief.lower()` (no partial resolution),
and string inputs never fail extraction. -/
theorem nonstring_rejected :
    (∀ v : PyInput, (∀ s, v ≠ PyInput.str s) →
      extract_keywords_dyn v = Except.error
        ("\x27" ++ pyTypeName v ++ "\x27 object has no attribute \x27lower\x27")
      ∧ resolve_dyn v = Except.error
        ("\x27" ++ pyTypeName v ++ "\x27 object has no attribute \x27lower\x27"))
    ∧ (∀ s : String, extract_keywords_dyn (PyInput.str s) =
        Except.ok (extract_keywords s)) := by
  constructor
  · intro v hv
    cases v with
    | str s => exact absurd rfl (hv s)
    | int n => exact ⟨rfl, rfl⟩
    | float q => exact ⟨rfl, rfl⟩
    | bool bb => exact ⟨rfl, rfl⟩
    | pyNone => exact ⟨rfl, rfl⟩
    | pyList => exact ⟨rfl, rfl⟩
    | pyDict => exact ⟨rfl, rfl⟩
  · intro s
    rfl

theorem nonstring_rejected_witness :
    extract_keywords_dyn (PyInput.int 0) =
      Except.error "\x27int\x27 object has no attribute \x27lower\x27"
    ∧ resolve_dyn (PyInput.int 0) =
      Except.error "\x27int\x27 object has no attribute \x27lower\x27" :=
  nonstring_rejected.1 (PyInput.int 0) (fun _ h => PyInput.noConfusion h)

/-- C2 (amended): every brief containing `"tower"` gets the form tag
`"tower"`; `story_count == 40` and `panel_density == 0.85` additionally
hold when `"tower"` is the only extracted keyword (they are otherwise
subject to last-write-wins overrides by later-processed keywords). -/
theorem tower_sets_form (b : String) (h : hasSub "tower".data b.data) :
    getParam (derive_parameters (extract_keywords b)) "form" = some (PValue.str "tower")
    ∧ (extract_keywords b = [("building_type", ["tower"])] →
        getParam (derive_parameters (extract_keywords b)) "story_count" =
          some (PValue.int 40)
        ∧ getParam (derive_parameters (extract_keywords b)) "panel_density" =
          some (PValue.float 0.85)) := by
  constructor
  · obtain ⟨ms, hmem, ht⟩ := extract_tower b (hasSub_lower b h)
    exact derive_form_tower _ ms hmem ht
  · intro he
    rw [he]
    exact ⟨rfl, rfl⟩

theorem tower_sets_form_witness :
    hasSub "tower".data "tower".data
    ∧ getParam (derive_parameters (extract_keywords "tower")) "form" =
        some (PValue.str "tower")
    ∧ getParam (derive_parameters (extract_keywords "tower")) "story_count" =
        some (PValue.int 40)
    ∧ getParam (derive_parameters (extract_keywords "tower")) "panel_density" =
        some (PValue.float 0.85) := by
  have hsub : hasSub "tower".data "tower".data := ⟨[], [], rfl⟩
  have h := tower_sets_form "tower" hsub
  exact ⟨hsub, h.1, h.2 (by decide)⟩

/-- C2 (counterexample): the brief `"tower low-rise"` contains `"tower"`
but resolves `story_count` to `5` and `panel_density` to `0.7`, because
the later `"low-rise"` match overwrites both. -/
theorem tower_counterexample :
    hasSub "tower".data "tower low-rise".data
    ∧ getParam (derive_parameters (extract_keywords "tower low-rise")) "story_count" ≠
        some (PValue.int 40)
    ∧ getParam (derive_parameters (extract_keywords "tower low-rise")) "panel_density" ≠
        some (PValue.float 0.85)
    ∧ getParam (derive_parameters (extract_keywords "tower low-rise")) "story_count" =
        some (PValue.int 5)
    ∧ getParam (derive_parameters (extract_keywords "tower low-rise")) "panel_density" =
        some (PValue.float 0.7) := by
  have hsc : getParam (derive_parameters (extract_keywords "tower low-rise")) "story_count" =
      some (PValue.int 5) := rfl
  have hpd : getParam (derive_parameters (extract_keywords "tower low-rise")) "panel_density" =
      some (PValue.float 0.7) := rfl
  refine ⟨⟨[], " low-rise".data, by decide⟩, ?_, ?_, hsc, hpd⟩
  · rw [hsc]
    simp only [ne_eq, Option.some.injEq, PValue.int.injEq]
    decide
  · rw [hpd]
    simp only [ne_eq, Option.some.injEq, PValue.float.injEq]
    norm_num

/-- C9: for every brief, derivation keeps all 13 default keys, can add
only the `"form"` key beyond them, and leaves every key outside the
matched rules\x27 written keys at its default value. -/
theorem derived_keys_invariant (b : String) :
    (default_params.map Prod.fst).length = 13
    ∧ (∀ k, (getParam default_params k).isSome →
        (getParam (derive_parameters (extract_keywords b)) k).isSome)
    ∧ (∀ k, (getParam (derive_parameters (extract_keywords b)) k).isSome →
        (getParam default_params k).isSome ∨ k = "form")
    ∧ (∀ k, k ∉ writtenKeys (extract_keywords b) →
        getParam (derive_parameters (extract_keywords b)) k = getParam default_params k) := by
  refine ⟨by decide, ?_, ?_, ?_⟩
  · intro k h
    exact foldCats_isSome (extract_keywords b) default_params k h
  · intro k h
    rcases foldCats_isSome_rev (extract_keywords b) default_params k h with h1 | h1 | h1
    · exact Or.inl h1
    · exact Or.inl h1
    · exact Or.inr h1
  · intro k hk
    apply foldCats_not_written
    intro c hc w hw hmem
    exact hk (writtenKeys_spec k _ c hc w hw hmem)

theorem derived_keys_invariant_witness :
    (getParam default_params "floor_height").isSome = true
    ∧ (getParam (derive_parameters (extract_keywords "a porous tower")) "floor_height").isSome = true
    ∧ ((getParam default_params "panel_type").isSome = true ∨ "panel_type" = "form")
    ∧ "floor_height" ∉ writtenKeys (extract_keywords "a porous tower")
    ∧ getParam (derive_parameters (extract_keywords "a porous tower")) "floor_height" =
        getParam default_params "floor_height" := by
  have h := derived_keys_invariant "a porous tower"
  refine ⟨by decide, h.2.1 "floor_height" (by decide), ?_, by decide,
    h.2.2.2 "floor_height" (by decide)⟩
  exact h.2.2.1 "panel_type" (by decide)

/-- C10: every entry of the extraction result is a pattern group with a
non-empty match list, and a group whose pattern finds no match in the
lower-cased brief is omitted from the result entirely. -/
theorem extraction_groups_nonempty (b : String) :
    (∀ p ∈ extract_keywords b, p.2 ≠ [])
    ∧ (∀ q ∈ patterns, findall (q.2.map String.data) (pyLower b) = [] →
        ∀ ws, (q.1, ws) ∉ extract_keywords b) := by
  constructor
  · intro p hp hnil
    have h2 := (List.mem_filter.mp hp).2
    rw [hnil] at h2
    exact absurd h2 (by decide)
  · intro q hq hfind ws hmem
    have h2 := (List.mem_filter.mp hmem).1
    have h3 := (List.mem_filter.mp hmem).2
    obtain ⟨cp, hcp, heq⟩ := List.mem_map.mp h2
    have hinj : ∀ x ∈ patterns, ∀ y ∈ patterns, x.1 = y.1 → x = y := by decide
    injection heq with hq1 hws0
    have hcpq : cp = q := hinj cp hcp q hq hq1
    have hws : ws = (findall (q.2.map String.data) (pyLower b)).map String.mk := by
      rw [← hws0, hcpq]
    rw [hws, hfind] at h3
    simp at h3

theorem extraction_groups_nonempty_witness :
    (("environment", ["solar"]) : String × List String).2 ≠ []
    ∧ ("building_type", ["tower"]) ∉ extract_keywords "solar" := by
  constructor
  · exact (extraction_groups_nonempty "solar").1 ("environment", ["solar"]) (by decide)
  · exact (extraction_groups_nonempty "solar").2
      ("building_type", ["high-rise", "mid-rise", "low-rise", "tower", "building"])
      (by decide) (by decide) ["tower"]

/-- C1 (code defect witness): for every brief and any code-generation
collaborators, `interpret_brief` returns the error record
`{"error": "\x27color_scheme\x27", "brief": brief}`: the first
`initialize_design` operation reads `params["color_scheme"]`, a key that
neither the defaults nor any keyword rule ever sets, so
`_generate_operations` raises `KeyError` before the structured response
can be built. -/
theorem interpret_always_keyerror
    (rhinoGen ghGen : List Operation → Except String String) (b : String) :
    interpret_brief_with rhinoGen ghGen b =
      BriefResult.genError "\x27color_scheme\x27" b := by
  have hcs := derived_no_color_scheme b
  have hgs : (getParam (derive_parameters (extract_keywords b)) "grid_size").isSome :=
    foldCats_isSome (extract_keywords b) default_params "grid_size" (by decide)
  have hmat : (getParam (derive_parameters (extract_keywords b)) "material").isSome :=
    foldCats_isSome (extract_keywords b) default_params "material" (by decide)
  obtain ⟨gv, hgv⟩ := Option.isSome_iff_exists.mp hgs
  obtain ⟨mv, hmv⟩ := Option.isSome_iff_exists.mp hmat
  have hgen : generate_operations (derive_parameters (extract_keywords b)) =
      Except.error "\x27color_scheme\x27" := by
    unfold generate_operations getItem
    rw [hgv, hmv, hcs]
    rfl
  simp only [interpret_brief_with]
  rw [hgen]

/-- C8: whenever the operation-generation stage fails (which it in fact
does on every brief), `interpret_brief` catches the exception and
returns the generation-error record carrying the original brief text,
and the resolver state is unchanged. -/
theorem generation_error_contained
    (rhinoGen ghGen : List Operation → Except String String) (b e : String)
    (h : generate_operations (derive_parameters (extract_keywords b)) = Except.error e) :
    interpret_brief_with rhinoGen ghGen b = BriefResult.genError e b
    ∧ (resolve_st mkInterpreter b).1 = mkInterpreter := by
  constructor
  · simp only [interpret_brief_with]
    rw [h]
  · rfl

theorem generation_error_contained_witness :
    generate_operations (derive_parameters (extract_keywords "x")) =
      Except.error "\x27color_scheme\x27"
    ∧ interpret_brief_with (fun _ => Except.ok "") (fun _ => Except.ok "") "x" =
        BriefResult.genError "\x27color_scheme\x27" "x"
    ∧ (resolve_st mkInterpreter "x").1 = mkInterpreter := by
  have hgen : generate_operations (derive_parameters (extract_keywords "x")) =
      Except.error "\x27color_scheme\x27" := rfl
  have h := generation_error_contained (fun _ => Except.ok "") (fun _ => Except.ok "")
    "x" "\x27color_scheme\x27" hgen
  exact ⟨hgen, h.1, h.2⟩

end RhinoMCP
